import Mathlib

/-!
Verification of the tournament backend services against their
natural-language specification.  The definitions below are shallow
embeddings of the TypeScript sources:

* `TournamentService` (tournamentService variants): registry of tournaments,
  `joinTournament`, `addPlayer`, `updateTournamentStatus`.
* `TournamentRulesService`: category catalog, `calculatePrizeDistribution`,
  `getRecommendedCategory`.
* `PlayerStatsService`: `calculateStats` (streak scan), `calculateRank`,
  `getLeaderboard`.
* `TournamentHistoryService`: `getTournamentStatistics`.

Conventions: TypeScript `bigint` is `Int` (with `Int.div`, which truncates
toward zero exactly as bigint division does); JS `number` is `ℚ` where the
values involved are exact in binary floating point (all comparisons proved
here involve such values); `Date` is an `Int` timestamp.  The `tournaments`
`Map` of the registry is embedded by its lookup function (`get`), with
`mapSet` mirroring `Map.set`; the claims below never depend on the map
iteration order.  Where iteration order does matter (the history service)
the map is embedded as a list of its values in insertion order.
Asynchronous calls to the external chain client are modelled by oracle
functions passed as arguments; a thrown exception is an `Except.error`
returned next to the (possibly mutated) state.
-/

set_option maxHeartbeats 1000000

/-! ### Data model (src/src/types/tournament.ts) -/

inductive TournamentStatus where
  | upcoming
  | active
  | completed
deriving DecidableEq, Repr

structure TournamentRules where
  minBet : Int
  maxBet : Int
  timeLimit : Int
  maxRounds : Int
  allowRebuys : Bool
deriving DecidableEq, Repr

structure Winner where
  address : String
  prize : Int
  rank : Nat
deriving DecidableEq, Repr

structure Tournament where
  id : String
  name : String
  description : String
  startTime : Int
  endTime : Option Int
  entryFee : Int
  prizePool : Int
  minPlayers : Nat
  maxPlayers : Nat
  status : TournamentStatus
  players : List String
  winners : List Winner
  rules : TournamentRules
deriving DecidableEq, Repr

/-- The `tournaments` map of `TournamentService`, embedded by its lookup
function: `reg id = some t` means the map holds `t` under key `id`. -/
abbrev Registry := String → Option Tournament

/-- `Map.set`. -/
def mapSet (m : Registry) (k : String) (v : Tournament) : Registry :=
  fun k' => if k' = k then some v else m k'

/-- Errors thrown by the registry operations: the code only ever throws
plain string errors (no CapacityError or DuplicateError class exists
anywhere in the sources); `gatewayFailed` stands for an exception
propagated out of a contract-service call. -/
inductive JoinError where
  | notFound
  | gatewayFailed
deriving DecidableEq, Repr

/-! ### TournamentService (src/unnamed/part_012)

Three versions of the class appear in the file; the functions below embed
the members the claims cite, one definition per cited variant.  The
contract service is an oracle: `gwGet` models `contractService.getTournament`
and `gwJoin` models `contractService.joinTournament` (`true` = the call
returns, `false` = it throws). -/

/-- `getTournament` of the first variant (lines 73-83): read-through cache.
On a cache miss the tournament fetched from the contract is stored into the
map.  Returns the result together with the possibly updated map. -/
def getTournamentRT (gwGet : String → Option Tournament) (reg : Registry)
    (tournamentId : String) : Option Tournament × Registry :=
  match reg tournamentId with
  | some t => (some t, reg)
  | none =>
    match gwGet tournamentId with
    | some t => (some t, mapSet reg tournamentId t)
    | none => (none, reg)

/-- `joinTournament` of the first variant (lines 62-71): resolve the
tournament (throwing `Tournament not found` when absent), call the contract
join, then push the player and re-set the map entry. -/
def joinTournament1 (gwGet : String → Option Tournament)
    (gwJoin : String → Int → Bool) (reg : Registry)
    (tournamentId playerAddress : String) (entryFee : Int) :
    Except JoinError Unit × Registry :=
  match getTournamentRT gwGet reg tournamentId with
  | (none, reg1) => (.error .notFound, reg1)
  | (some t, reg1) =>
    if gwJoin tournamentId entryFee then
      (.ok (), mapSet reg1 tournamentId { t with players := t.players ++ [playerAddress] })
    else
      (.error .gatewayFailed, reg1)

/-- `joinTournament` of the second variant (lines 267-274): contract join
first, then push the player if the tournament is cached (silently doing
nothing when it is not). -/
def joinTournament2 (gwJoin : String → String → Int → Bool) (reg : Registry)
    (tournamentId playerAddress : String) (entryFee : Int) :
    Except JoinError Unit × Registry :=
  if gwJoin tournamentId playerAddress entryFee then
    match reg tournamentId with
    | some t =>
      (.ok (), mapSet reg tournamentId { t with players := t.players ++ [playerAddress] })
    | none => (.ok (), reg)
  else
    (.error .gatewayFailed, reg)

/-- `addPlayer` of the third variant (lines 602-609): throw when the
tournament is unknown, otherwise push the player unconditionally. -/
def addPlayer (reg : Registry) (tournamentId playerAddress : String) :
    Except JoinError Unit × Registry :=
  match reg tournamentId with
  | none => (.error .notFound, reg)
  | some t =>
    (.ok (), mapSet reg tournamentId { t with players := t.players ++ [playerAddress] })

/-- `updateTournamentStatus` of the first variant (lines 89-95): set the
requested status if the tournament exists, silently ignore unknown ids. -/
def updateTournamentStatus1 (reg : Registry) (tournamentId : String)
    (status : TournamentStatus) : Registry :=
  match reg tournamentId with
  | some t => mapSet reg tournamentId { t with status := status }
  | none => reg

/-- `updateTournamentStatus` of the third variant (lines 611-618): throw
when the tournament is unknown, otherwise set the requested status. -/
def updateTournamentStatus3 (reg : Registry) (tournamentId : String)
    (status : TournamentStatus) : Except JoinError Unit × Registry :=
  match reg tournamentId with
  | none => (.error .notFound, reg)
  | some t => (.ok (), mapSet reg tournamentId { t with status := status })

/-! ### Concrete fixtures for the registry claims -/

/-- A registry with no tournaments. -/
def emptyReg : Registry := fun _ => none

def rules0 : TournamentRules :=
  { minBet := 1, maxBet := 100, timeLimit := 60, maxRounds := 10, allowRebuys := false }

/-- A one-seat tournament with an empty roster. -/
def tour0 : Tournament :=
  { id := "t1", name := "T", description := "d", startTime := 0, endTime := none,
    entryFee := 100, prizePool := 1000, minPlayers := 1, maxPlayers := 1,
    status := .upcoming, players := [], winners := [], rules := rules0 }

def reg0 : Registry := fun i => if i = "t1" then some tour0 else none

/-- The same tournament with its single seat already taken. -/
def tourFull : Tournament := { tour0 with players := ["a"] }

def regFull : Registry := fun i => if i = "t1" then some tourFull else none

/-- A contract join call that always returns (second variant signature). -/
def gwOk2 : String → String → Int → Bool := fun _ _ _ => true

/-- A contract join call that always returns (first variant signature). -/
def gwOk1 : String → Int → Bool := fun _ _ => true

/-- A contract join call that always throws (first variant signature). -/
def gwFail1 : String → Int → Bool := fun _ _ => false

/-- A contract lookup that never finds a tournament. -/
def gwGetNone : String → Option Tournament := fun _ => none

/-- A contract lookup that knows tournament `t1`. -/
def gwGetT : String → Option Tournament := fun i => if i = "t1" then some tour0 else none

/-! ### TournamentRulesService (src/unnamed/part_017) -/

structure PrizeDistributionRule where
  rank : Nat
  percentage : ℚ
  minPlayers : Nat
deriving DecidableEq, Repr

structure TournamentCategory where
  id : String
  name : String
  description : String
  minEntryFee : Int
  maxEntryFee : Int
  minPlayers : Nat
  maxPlayers : Nat
  duration : Nat
  prizeDistribution : List PrizeDistributionRule
deriving DecidableEq, Repr

/-- `initializeCategories` (lines 31-84), with the exact wei amounts and
percentage tables of the source. -/
def initializeCategories : List TournamentCategory :=
  [ { id := "beginner", name := "Beginner",
      description := "Tournaments for new players with small entry fees",
      minEntryFee := 1000000000000000, maxEntryFee := 10000000000000000,
      minPlayers := 2, maxPlayers := 10, duration := 24,
      prizeDistribution :=
        [ { rank := 1, percentage := 60, minPlayers := 2 },
          { rank := 2, percentage := 30, minPlayers := 4 },
          { rank := 3, percentage := 10, minPlayers := 6 } ] },
    { id := "intermediate", name := "Intermediate",
      description := "Tournaments for experienced players",
      minEntryFee := 10000000000000000, maxEntryFee := 100000000000000000,
      minPlayers := 4, maxPlayers := 20, duration := 48,
      prizeDistribution :=
        [ { rank := 1, percentage := 50, minPlayers := 4 },
          { rank := 2, percentage := 30, minPlayers := 8 },
          { rank := 3, percentage := 15, minPlayers := 12 },
          { rank := 4, percentage := 5, minPlayers := 16 } ] },
    { id := "expert", name := "Expert",
      description := "High-stakes tournaments for skilled players",
      minEntryFee := 100000000000000000, maxEntryFee := 1000000000000000000,
      minPlayers := 8, maxPlayers := 50, duration := 72,
      prizeDistribution :=
        [ { rank := 1, percentage := 40, minPlayers := 8 },
          { rank := 2, percentage := 25, minPlayers := 16 },
          { rank := 3, percentage := 15, minPlayers := 24 },
          { rank := 4, percentage := 10, minPlayers := 32 },
          { rank := 5, percentage := 5, minPlayers := 40 },
          { rank := 6, percentage := 3, minPlayers := 48 },
          { rank := 7, percentage := 2, minPlayers := 50 } ] } ]

/-- `getCategoryById` (lines 90-92). -/
def getCategoryById (id : String) : Option TournamentCategory :=
  initializeCategories.find? (fun category => category.id == id)

structure PrizeShare where
  rank : Nat
  amount : Int
deriving DecidableEq, Repr

/-- `calculatePrizeDistribution` (lines 126-142): keep the rules whose
`minPlayers` threshold is met, and pay
`(totalPrizePool * BigInt(Math.floor(rule.percentage * 100))) / BigInt(10000)`,
with bigint (truncating) division. -/
def calculatePrizeDistribution (categoryId : String) (totalPrizePool : Int)
    (playerCount : Nat) : Except String (List PrizeShare) :=
  match getCategoryById categoryId with
  | none => .error "Invalid category"
  | some category =>
    .ok ((category.prizeDistribution.filter
        (fun rule => decide (rule.minPlayers ≤ playerCount))).map
      (fun rule =>
        { rank := rule.rank,
          amount := Int.tdiv (totalPrizePool * ⌊(rule.percentage * 100 : ℚ)⌋) 10000 }))

/-- The slice of `PlayerStats` that `getRecommendedCategory` reads. -/
structure RecommendStats where
  totalGames : Nat
  winRate : ℚ
  averageBet : Int
deriving DecidableEq, Repr

/-- `getRecommendedCategory` (lines 144-176): pick a tier from
`totalGames`/`winRate`, then, when the average bet is below the tier floor,
search for a category whose fee range brackets the bet. -/
def getRecommendedCategory (playerStats : RecommendStats) :
    Option TournamentCategory :=
  let categories := initializeCategories
  let recommendedCategory : Option TournamentCategory :=
    if playerStats.totalGames < 10 ∨ playerStats.winRate < (0.3 : ℚ) then
      categories.find? (fun c => c.id == "beginner")
    else if playerStats.totalGames < 50 ∨ playerStats.winRate < (0.5 : ℚ) then
      categories.find? (fun c => c.id == "intermediate")
    else
      categories.find? (fun c => c.id == "expert")
  match recommendedCategory with
  | some c =>
    if playerStats.averageBet < c.minEntryFee then
      categories.find? (fun cc =>
        decide (cc.minEntryFee ≤ playerStats.averageBet ∧
          playerStats.averageBet ≤ cc.maxEntryFee))
    else
      some c
  | none => none

/-- The scaled percentage column of a category, in table order. -/
def scaledPercentages (category : TournamentCategory) : List Int :=
  category.prizeDistribution.map (fun rule => ⌊(rule.percentage * 100 : ℚ)⌋)

/-- The first catalog entry, used to instantiate the claim C4 theorem. -/
def beginnerCat : TournamentCategory :=
  initializeCategories.get ⟨0, by simp [initializeCategories]⟩

/-! ### PlayerStatsService (src/src/services/playerStatsService.ts) -/

inductive GameOutcome where
  | win
  | lose
  | draw
deriving DecidableEq, Repr

/-- `PlayerStats` (src/src/types/game.ts).  `tournamentsWon` is not part of
the TypeScript interface; `getLeaderboard` reads it as an untyped property
with a `|| 0` fallback, so it is embedded as an optional field. -/
structure PlayerStats where
  address : String
  totalGames : Nat
  wins : Nat
  losses : Nat
  draws : Nat
  totalBetAmount : Int
  totalWinAmount : Int
  winRate : ℚ
  highestWin : Int
  currentStreak : Int
  bestStreak : Int
  tournamentsWon : Option Nat
deriving DecidableEq, Repr

/-- The loop accumulator of `calculateStats` (lines 39-77). -/
structure StatsAcc where
  totalGames : Nat
  wins : Nat
  losses : Nat
  draws : Nat
  currentStreak : Int
  bestStreak : Int
deriving DecidableEq, Repr

/-- One iteration of the `calculateStats` loop (lines 51-65): wins extend a
nonnegative streak and refresh `bestStreak`; losses extend a nonpositive
streak without touching `bestStreak`; draws reset the streak to zero. -/
def statStep (acc : StatsAcc) (outcome : GameOutcome) : StatsAcc :=
  let acc1 := { acc with totalGames := acc.totalGames + 1 }
  match outcome with
  | .win =>
    let streak := max (0 : Int) acc1.currentStreak + 1
    { acc1 with
      wins := acc1.wins + 1
      currentStreak := streak
      bestStreak := max acc1.bestStreak streak }
  | .lose =>
    { acc1 with
      losses := acc1.losses + 1
      currentStreak := min (0 : Int) acc1.currentStreak - 1 }
  | .draw =>
    { acc1 with draws := acc1.draws + 1, currentStreak := 0 }

def statsInit : StatsAcc :=
  { totalGames := 0, wins := 0, losses := 0, draws := 0,
    currentStreak := 0, bestStreak := 0 }

def runStats (games : List GameOutcome) : StatsAcc :=
  games.foldl statStep statsInit

/-- `calculateStats` (lines 39-97): the loop above, packaged as a
`PlayerStats`.  Bet and win amounts are the constant zero of the source
(its TODO stub); the `lastGamePlayed` date is omitted. -/
def calculateStats (address : String) (games : List GameOutcome) :
    PlayerStats :=
  let acc := runStats games
  { address := address, totalGames := acc.totalGames, wins := acc.wins,
    losses := acc.losses, draws := acc.draws, totalBetAmount := 0,
    totalWinAmount := 0,
    winRate := if 0 < acc.totalGames then (acc.wins : ℚ) / acc.totalGames else 0,
    highestWin := 0, currentStreak := acc.currentStreak,
    bestStreak := acc.bestStreak, tournamentsWon := none }

/-- Number of consecutive wins at the head of the list. -/
def leadingWins : List GameOutcome → Nat
  | [] => 0
  | .win :: rest => leadingWins rest + 1
  | .lose :: _ => 0
  | .draw :: _ => 0

/-- Number of consecutive losses at the head of the list. -/
def leadingLosses : List GameOutcome → Nat
  | [] => 0
  | .lose :: rest => leadingLosses rest + 1
  | .win :: _ => 0
  | .draw :: _ => 0

/-- Largest count of leading wins over all suffixes. -/
def maxLeadingWins : List GameOutcome → Nat
  | [] => 0
  | o :: rest => max (leadingWins (o :: rest)) (maxLeadingWins rest)

/-- Largest count of leading losses over all suffixes. -/
def maxLeadingLosses : List GameOutcome → Nat
  | [] => 0
  | o :: rest => max (leadingLosses (o :: rest)) (maxLeadingLosses rest)

/-- Wins at the end of the chronological history. -/
def trailingWins (games : List GameOutcome) : Nat :=
  leadingWins games.reverse

/-- Losses at the end of the chronological history. -/
def trailingLosses (games : List GameOutcome) : Nat :=
  leadingLosses games.reverse

/-- Length of the longest run of consecutive wins anywhere in the
history. -/
def bestWinRun (games : List GameOutcome) : Nat :=
  maxLeadingWins games.reverse

/-- Length of the longest run of consecutive losses anywhere in the
history. -/
def bestLossRun (games : List GameOutcome) : Nat :=
  maxLeadingLosses games.reverse

/-- The quantity named by the claim and by the spec: the maximum absolute
run length achieved anywhere in the history, whether the run consists of
wins or of losses. -/
def specMaxRunLength (games : List GameOutcome) : Nat :=
  max (bestWinRun games) (bestLossRun games)

/-! ### Leaderboard (getLeaderboard, lines 104-138) -/

/-- One row of the value returned by `getLeaderboard`. -/
structure LeaderboardEntry where
  address : String
  rank : ℚ
  winRate : ℚ
  totalWon : Int
  tournamentsWon : Nat
deriving DecidableEq, Repr

/-- `calculateRank` (lines 133-138): `Math.floor(winRate * 100)` plus
`Math.min(totalGames / 10, 10)`; the division is JS float division, so the
bonus may be fractional. -/
def calculateRank (stats : PlayerStats) : ℚ :=
  (⌊stats.winRate * 100⌋ : ℚ) + min ((stats.totalGames : ℚ) / 10) 10

/-- The comparator of the `sort` call in `getLeaderboard` (lines 121-129):
`a.rank - b.rank` when the ranks differ, then `b.winRate - a.winRate` when
the win rates differ, then `Number(b.totalWon - a.totalWon)`. -/
def leaderboardCmp (a b : LeaderboardEntry) : ℚ :=
  if a.rank ≠ b.rank then a.rank - b.rank
  else if a.winRate ≠ b.winRate then b.winRate - a.winRate
  else ((b.totalWon - a.totalWon : Int) : ℚ)

/-- `a` sorts no later than `b`: the comparator is nonpositive. -/
def leaderboardLe (a b : LeaderboardEntry) : Bool :=
  decide (leaderboardCmp a b ≤ 0)

/-- The entry built for one player before sorting (lines 112-118);
`tournamentsWon` is the untyped `stat.tournamentsWon || 0`. -/
def leaderboardEntry (stat : PlayerStats) : LeaderboardEntry :=
  { address := stat.address, rank := calculateRank stat,
    winRate := stat.winRate, totalWon := stat.totalWinAmount,
    tournamentsWon := stat.tournamentsWon.getD 0 }

/-- `getLeaderboard` (lines 104-131) over the stored stats (the map values
in insertion order): build entries, sort with the comparator (JS sort is
stable, as is `mergeSort`), then `slice(0, limit)`. -/
def getLeaderboard (stats : List PlayerStats) (limit : Nat) :
    List LeaderboardEntry :=
  ((stats.map leaderboardEntry).mergeSort leaderboardLe).take limit

/-- The ordering the comparator actually implements: ascending by rank
score, ties broken by winRate descending, then by totalWon descending. -/
def LeaderboardOrder (a b : LeaderboardEntry) : Prop :=
  a.rank < b.rank ∨ (a.rank = b.rank ∧ (b.winRate < a.winRate ∨
    (a.winRate = b.winRate ∧ b.totalWon ≤ a.totalWon)))

/-- Player stats fixtures for the leaderboard claim: alice and bob share
the composite score 60 (alice: win rate 0.5 and 100 games; bob: win rate
0.505 and 200 games) while alice has won more; carol scores 0. -/
def statA : PlayerStats :=
  { address := "alice", totalGames := 100, wins := 50, losses := 50,
    draws := 0, totalBetAmount := 0, totalWinAmount := 1000,
    winRate := 1/2, highestWin := 0, currentStreak := 0, bestStreak := 0,
    tournamentsWon := none }

def statB : PlayerStats :=
  { address := "bob", totalGames := 200, wins := 101, losses := 99,
    draws := 0, totalBetAmount := 0, totalWinAmount := 0,
    winRate := 101/200, highestWin := 0, currentStreak := 0, bestStreak := 0,
    tournamentsWon := none }

def statC : PlayerStats :=
  { address := "carol", totalGames := 0, wins := 0, losses := 0,
    draws := 0, totalBetAmount := 0, totalWinAmount := 0,
    winRate := 0, highestWin := 0, currentStreak := 0, bestStreak := 0,
    tournamentsWon := none }

def entA : LeaderboardEntry :=
  { address := "alice", rank := 60, winRate := 1/2, totalWon := 1000,
    tournamentsWon := 0 }

def entB : LeaderboardEntry :=
  { address := "bob", rank := 60, winRate := 101/200, totalWon := 0,
    tournamentsWon := 0 }

def entC : LeaderboardEntry :=
  { address := "carol", rank := 0, winRate := 0, totalWon := 0,
    tournamentsWon := 0 }

/-! ### TournamentHistoryService (src/unnamed/part_010 and
src/src/services/tournamentHistoryService.ts)

`getTournamentStatistics` is identical in the two versions up to the
representation of prizes (bigint vs decimal string); the embedding takes
the list of `TournamentHistory` values of the map in insertion order. -/

/-- `TournamentStats` (src/src/types/tournament.ts). -/
structure TournamentStatsRec where
  totalPlayers : Int
  activePlayers : Int
  totalPrizePool : Int
  averageEntryFee : Int
  completedGames : Int
  activeGames : Int
deriving DecidableEq, Repr

/-- A recorded tournament snapshot (part_010 lines 8-18). -/
structure TournamentHistoryRec where
  tournamentId : String
  name : String
  startTime : Int
  endTime : Option Int
  entryFee : Int
  prizePool : Int
  players : List String
  winners : List Winner
  stats : TournamentStatsRec
deriving DecidableEq, Repr

/-- One aggregated row of `mostSuccessfulPlayers`. -/
structure PlayerPrize where
  address : String
  tournamentsWon : Nat
  totalPrize : Int
deriving DecidableEq, Repr

/-- One step of the winner aggregation (part_010 lines 233-240): a JS `Map`
update, embedded on the list of entries in insertion order -- an existing
entry is updated in place, a new address is appended. -/
def bumpWinner (acc : List PlayerPrize) (w : Winner) : List PlayerPrize :=
  if acc.any (fun p => p.address == w.address) then
    acc.map (fun p =>
      if p.address = w.address then
        { p with tournamentsWon := p.tournamentsWon + 1,
                 totalPrize := p.totalPrize + w.prize }
      else p)
  else
    acc ++ [{ address := w.address, tournamentsWon := 1, totalPrize := w.prize }]

/-- The `playerStats` map of `getTournamentStatistics` after both
`forEach` loops, as its entry list in insertion order. -/
def playerPrizeTable (histories : List TournamentHistoryRec) :
    List PlayerPrize :=
  histories.foldl (fun acc h => h.winners.foldl bumpWinner acc) []

/-- The comparator of `mostSuccessfulPlayers` (line 248):
`Number(b.totalPrize - a.totalPrize)`, nonpositive when `a` sorts first.
There is no secondary key. -/
def successLe (a b : PlayerPrize) : Bool :=
  decide (b.totalPrize - a.totalPrize ≤ 0)

/-- `mostSuccessfulPlayers` (lines 242-249): sort the aggregated entries
by total prize descending (stable sort, no tie-break) and keep the top
10. -/
def mostSuccessfulPlayers (histories : List TournamentHistoryRec) :
    List PlayerPrize :=
  ((playerPrizeTable histories).mergeSort successLe).take 10

/-- The record returned by `getTournamentStatistics` (lines 219-260).
`averagePlayersPerTournament` is a JS number that can be the non-number
NaN (0/0 on an empty history); `none` encodes that case. -/
structure TournamentStatistics where
  totalTournaments : Nat
  totalPlayers : Nat
  totalPrizePool : Int
  averagePlayersPerTournament : Option ℚ
  mostSuccessful : List PlayerPrize
deriving DecidableEq, Repr

/-- `getTournamentStatistics` (lines 219-260): tournament count, distinct
player count (a JS `Set` over all rosters), summed prize pool, the
unguarded average `sum of roster sizes / histories.length` (NaN, i.e.
`none`, when the history is empty) and the top winners. -/
def getTournamentStatistics (histories : List TournamentHistoryRec) :
    TournamentStatistics :=
  { totalTournaments := histories.length
    totalPlayers := ((histories.map (fun h => h.players)).flatten).dedup.length
    totalPrizePool := (histories.map (fun h => h.prizePool)).sum
    averagePlayersPerTournament :=
      if histories.length = 0 then none
      else some ((histories.map (fun h => (h.players.length : ℚ))).sum
        / (histories.length : ℚ))
    mostSuccessful := mostSuccessfulPlayers histories }

/-- History fixtures for the tie-break claim: player x wins 100 in one
tournament; player y wins 60 and then 40 over two tournaments. -/
def statsRec0 : TournamentStatsRec :=
  { totalPlayers := 0, activePlayers := 0, totalPrizePool := 0,
    averageEntryFee := 0, completedGames := 0, activeGames := 0 }

def histRec (i : String) (w : List Winner) : TournamentHistoryRec :=
  { tournamentId := i, name := i, startTime := 0, endTime := none,
    entryFee := 0, prizePool := 0, players := [], winners := w,
    stats := statsRec0 }

def hist1 : TournamentHistoryRec := histRec "h1" [{ address := "x", prize := 100, rank := 1 }]

def hist2 : TournamentHistoryRec := histRec "h2" [{ address := "y", prize := 60, rank := 1 }]

def hist3 : TournamentHistoryRec := histRec "h3" [{ address := "y", prize := 40, rank := 1 }]

def prizeX : PlayerPrize := { address := "x", tournamentsWon := 1, totalPrize := 100 }

def prizeY : PlayerPrize := { address := "y", tournamentsWon := 2, totalPrize := 100 }

theorem mapSet_self (m : Registry) (k : String) (v : Tournament) :
    mapSet m k v k = some v := by
  simp [mapSet]

theorem mapSet_ne (m : Registry) (k k' : String) (v : Tournament)
    (hne : k' ≠ k) : mapSet m k v k' = m k' := by
  simp [mapSet, hne]

/-! ### Claim C1 -/

/-- Claim C1, as stated, is false: starting from a one-seat tournament with
an empty roster, two consecutive `joinTournament` calls (second variant,
contract join succeeding) both return `ok`; the second call is made with
`players.length = maxPlayers = 1`, yet it does not fail and the roster
grows to 2 players. -/
theorem c1_join_beyond_capacity_succeeds :
    (joinTournament2 gwOk2 reg0 "t1" "a" 100).1 = .ok () ∧
    (((joinTournament2 gwOk2 reg0 "t1" "a" 100).2 "t1").map Tournament.players
      = some ["a"]) ∧
    (joinTournament2 gwOk2 (joinTournament2 gwOk2 reg0 "t1" "a" 100).2 "t1" "b" 100).1
      = .ok () ∧
    (((joinTournament2 gwOk2 (joinTournament2 gwOk2 reg0 "t1" "a" 100).2 "t1" "b" 100).2
        "t1").map Tournament.players = some ["a", "b"]) ∧
    tour0.maxPlayers = 1 :=
  ⟨rfl, rfl, rfl, rfl, rfl⟩

/-- Claim C1 (amended): `joinTournament` performs no capacity check.  If
the tournament exists and the contract join succeeds, the call returns `ok`
and appends the player even when `players.length ≥ maxPlayers`, making the
roster exceed `maxPlayers`; `addPlayer` behaves the same way.  No
`CapacityError` exists in the code. -/
theorem joinTournament_no_capacity_check
    (gwJoin : String → String → Int → Bool) (reg : Registry)
    (tid addr : String) (fee : Int) (t : Tournament)
    (hreg : reg tid = some t) (hgw : gwJoin tid addr fee = true)
    (hfull : t.maxPlayers ≤ t.players.length) :
    (joinTournament2 gwJoin reg tid addr fee).1 = .ok () ∧
    ((joinTournament2 gwJoin reg tid addr fee).2 tid).map Tournament.players
      = some (t.players ++ [addr]) ∧
    (addPlayer reg tid addr).1 = .ok () ∧
    ((addPlayer reg tid addr).2 tid).map Tournament.players
      = some (t.players ++ [addr]) ∧
    t.maxPlayers < (t.players ++ [addr]).length := by
  refine ⟨?_, ?_, ?_, ?_, ?_⟩ <;>
    simp [joinTournament2, addPlayer, hreg, hgw, mapSet_self, List.length_append]
  omega

/-- Witness for the amended claim C1 at the full one-seat tournament. -/
theorem c1_witness :
    (regFull "t1" = some tourFull ∧ gwOk2 "t1" "b" 100 = true ∧
      tourFull.maxPlayers ≤ tourFull.players.length) ∧
    ((joinTournament2 gwOk2 regFull "t1" "b" 100).1 = .ok () ∧
      ((joinTournament2 gwOk2 regFull "t1" "b" 100).2 "t1").map Tournament.players
        = some (tourFull.players ++ ["b"]) ∧
      (addPlayer regFull "t1" "b").1 = .ok () ∧
      ((addPlayer regFull "t1" "b").2 "t1").map Tournament.players
        = some (tourFull.players ++ ["b"]) ∧
      tourFull.maxPlayers < (tourFull.players ++ ["b"]).length) :=
  ⟨⟨by decide, by decide, by decide⟩,
    joinTournament_no_capacity_check gwOk2 regFull "t1" "b" 100 tourFull
      (by decide) (by decide) (by decide)⟩

/-! ### Claim C2 -/

/-- Claim C2, as stated, is false: after a successful `joinTournament`
(first variant) by address `a`, a second `joinTournament` with the same id
and address also returns `ok` and appends `a` again, so `players.length`
changes from 1 to 2 and the roster holds a duplicate. -/
theorem c2_second_join_succeeds :
    (joinTournament1 gwGetNone gwOk1 reg0 "t1" "a" 100).1 = .ok () ∧
    (((joinTournament1 gwGetNone gwOk1 reg0 "t1" "a" 100).2 "t1").map Tournament.players
      = some ["a"]) ∧
    (joinTournament1 gwGetNone gwOk1
        (joinTournament1 gwGetNone gwOk1 reg0 "t1" "a" 100).2 "t1" "a" 100).1 = .ok () ∧
    (((joinTournament1 gwGetNone gwOk1
        (joinTournament1 gwGetNone gwOk1 reg0 "t1" "a" 100).2 "t1" "a" 100).2 "t1").map
      Tournament.players = some ["a", "a"]) :=
  ⟨rfl, rfl, rfl, rfl⟩

/-- Claim C2 (amended): `joinTournament` performs no duplicate check.  If
the tournament exists, the address is already registered and the contract
join succeeds, the second call also returns `ok` and appends the address
again: `players.length` grows by one and the address now occurs at least
twice.  No `DuplicateError` exists in the code. -/
theorem joinTournament_no_duplicate_check
    (gwGet : String → Option Tournament) (gwJoin : String → Int → Bool)
    (reg : Registry) (tid addr : String) (fee : Int) (t : Tournament)
    (hreg : reg tid = some t) (hmem : addr ∈ t.players)
    (hgw : gwJoin tid fee = true) :
    (joinTournament1 gwGet gwJoin reg tid addr fee).1 = .ok () ∧
    ((joinTournament1 gwGet gwJoin reg tid addr fee).2 tid).map Tournament.players
      = some (t.players ++ [addr]) ∧
    (t.players ++ [addr]).length = t.players.length + 1 ∧
    2 ≤ (t.players ++ [addr]).count addr := by
  refine ⟨?_, ?_, ?_, ?_⟩
  · simp [joinTournament1, getTournamentRT, hreg, hgw]
  · simp [joinTournament1, getTournamentRT, hreg, hgw, mapSet_self]
  · simp
  · have h1 : 1 ≤ t.players.count addr := List.one_le_count_iff.mpr hmem
    have h2 : (t.players ++ [addr]).count addr = t.players.count addr + 1 := by
      simp [List.count_append]
    omega

/-- Witness for the amended claim C2 at the full one-seat tournament whose
roster already holds `a`. -/
theorem c2_witness :
    (regFull "t1" = some tourFull ∧ "a" ∈ tourFull.players ∧
      gwOk1 "t1" 100 = true) ∧
    ((joinTournament1 gwGetNone gwOk1 regFull "t1" "a" 100).1 = .ok () ∧
      ((joinTournament1 gwGetNone gwOk1 regFull "t1" "a" 100).2 "t1").map
        Tournament.players = some (tourFull.players ++ ["a"]) ∧
      (tourFull.players ++ ["a"]).length = tourFull.players.length + 1 ∧
      2 ≤ (tourFull.players ++ ["a"]).count "a") :=
  ⟨⟨by decide, by decide, by decide⟩,
    joinTournament_no_duplicate_check gwGetNone gwOk1 regFull "t1" "a" 100 tourFull
      (by decide) (by decide) (by decide)⟩

/-! ### Claim C3 -/

/-- Claim C3, as stated, is false: starting from an UPCOMING tournament,
`updateTournamentStatus` to COMPLETED and then to ACTIVE both take effect,
so the backward transition COMPLETED to ACTIVE does occur under a sequence
of `updateStatus` calls. -/
theorem c3_backward_transition_applied :
    ((updateTournamentStatus1 reg0 "t1" .completed "t1").map Tournament.status
      = some .completed) ∧
    ((updateTournamentStatus1 (updateTournamentStatus1 reg0 "t1" .completed) "t1"
        .active "t1").map Tournament.status = some .active) :=
  ⟨rfl, rfl⟩

/-- Claim C3 (amended): `updateTournamentStatus` applies the requested
status unconditionally whenever the tournament exists, so setting the same
status twice is trivially idempotent, but every transition, including the
backward ones COMPLETED to ACTIVE, ACTIVE to UPCOMING and COMPLETED to
UPCOMING, takes effect.  The only guard is existence: the first variant
silently ignores an unknown id, the third variant throws on it. -/
theorem updateTournamentStatus_unconditional
    (reg : Registry) (tid : String) (st : TournamentStatus) (t : Tournament)
    (hreg : reg tid = some t) :
    updateTournamentStatus1 reg tid st tid = some { t with status := st } ∧
    (updateTournamentStatus3 reg tid st).1 = .ok () ∧
    (updateTournamentStatus3 reg tid st).2 tid = some { t with status := st } ∧
    (∀ tid2, reg tid2 = none →
      updateTournamentStatus1 reg tid2 st = reg ∧
      (updateTournamentStatus3 reg tid2 st).1 = .error .notFound) := by
  refine ⟨?_, ?_, ?_, fun tid2 h2 => ⟨?_, ?_⟩⟩ <;>
    simp [updateTournamentStatus1, updateTournamentStatus3, hreg, mapSet_self, *]

/-- Witness for the amended claim C3: a COMPLETED tournament is moved back
to ACTIVE. -/
theorem c3_witness :
    (regFull "t1" = some tourFull ∧ emptyReg "t1" = none) ∧
    (updateTournamentStatus1 regFull "t1" .active "t1"
        = some { tourFull with status := .active } ∧
      (updateTournamentStatus3 regFull "t1" .active).1 = .ok () ∧
      (updateTournamentStatus3 regFull "t1" .active).2 "t1"
        = some { tourFull with status := .active } ∧
      (∀ tid2, regFull tid2 = none →
        updateTournamentStatus1 regFull tid2 .active = regFull ∧
        (updateTournamentStatus3 regFull tid2 .active).1 = .error .notFound)) :=
  ⟨⟨by decide, by decide⟩,
    updateTournamentStatus_unconditional regFull "t1" .active tourFull (by decide)⟩

/-! ### Claim C5 -/

/-- Claim C5, as stated, is false in one corner: when the tournament is not
cached, the read-through `getTournament` inside `joinTournament` (first
variant) stores the tournament fetched from the contract into the map
before the contract join throws, so a failing call can leave the registry
changed (the cache gained an entry), even though the player was not
appended anywhere. -/
theorem c5_failed_join_changes_cache :
    (joinTournament1 gwGetT gwFail1 emptyReg "t1" "a" 100).1
      = .error .gatewayFailed ∧
    (joinTournament1 gwGetT gwFail1 emptyReg "t1" "a" 100).2 "t1" = some tour0 ∧
    emptyReg "t1" = none ∧
    tour0.players = [] :=
  ⟨rfl, rfl, rfl, rfl⟩

/-- Claim C5 (amended): a failing `joinTournament` never appends the
player.  For the first variant, on error the registry is unchanged except
that a cache miss resolved through the contract may have populated the
cache with the fetched tournament verbatim; for the second variant, on
error the registry is exactly unchanged. -/
theorem joinTournament_failure_no_append
    (gwGet : String → Option Tournament) (gwJoin : String → Int → Bool)
    (reg : Registry) (tid addr : String) (fee : Int) (e : JoinError)
    (h : (joinTournament1 gwGet gwJoin reg tid addr fee).1 = .error e) :
    ((joinTournament1 gwGet gwJoin reg tid addr fee).2 = reg ∨
      (reg tid = none ∧ ∃ t, gwGet tid = some t ∧
        (joinTournament1 gwGet gwJoin reg tid addr fee).2 = mapSet reg tid t)) ∧
    (∀ (gwJoin2 : String → String → Int → Bool) (e2 : JoinError),
      (joinTournament2 gwJoin2 reg tid addr fee).1 = .error e2 →
      (joinTournament2 gwJoin2 reg tid addr fee).2 = reg) := by
  constructor
  · unfold joinTournament1 getTournamentRT at h ⊢
    cases hreg : reg tid with
    | some t =>
      simp only [hreg] at h ⊢
      cases hgw : gwJoin tid fee with
      | true => simp [hgw] at h
      | false => simp [hgw]
    | none =>
      cases hget : gwGet tid with
      | some t =>
        cases hgw : gwJoin tid fee with
        | true => simp [hreg, hget, hgw] at h
        | false =>
          refine Or.inr ⟨rfl, t, rfl, ?_⟩
          simp [hreg, hget, hgw]
      | none => simp [hreg, hget]
  · intro gwJoin2 e2 h2
    unfold joinTournament2 at h2 ⊢
    cases hgw : gwJoin2 tid addr fee with
    | true =>
      simp only [hgw, if_true] at h2
      cases hreg : reg tid with
      | some t => simp [hreg] at h2
      | none => simp [hreg] at h2
    | false => simp [hgw]

/-- Witness for the amended claim C5 at a concrete failing join. -/
theorem c5_witness :
    ((joinTournament1 gwGetT gwFail1 emptyReg "t1" "a" 100).1
      = .error .gatewayFailed) ∧
    (((joinTournament1 gwGetT gwFail1 emptyReg "t1" "a" 100).2 = emptyReg ∨
      (emptyReg "t1" = none ∧ ∃ t, gwGetT "t1" = some t ∧
        (joinTournament1 gwGetT gwFail1 emptyReg "t1" "a" 100).2
          = mapSet emptyReg "t1" t)) ∧
    (∀ (gwJoin2 : String → String → Int → Bool) (e2 : JoinError),
      (joinTournament2 gwJoin2 emptyReg "t1" "a" 100).1 = .error e2 →
      (joinTournament2 gwJoin2 emptyReg "t1" "a" 100).2 = emptyReg)) :=
  ⟨rfl, joinTournament_failure_no_append gwGetT gwFail1 emptyReg "t1" "a" 100
    .gatewayFailed rfl⟩

/-! ### Claim C4 -/

/-- Truncating bigint division by `10000` coincides with floor division for
a nonnegative dividend. -/
theorem tdiv_ten_thousand_eq_ediv (a : Int) (ha : 0 ≤ a) :
    Int.tdiv a 10000 = a / 10000 :=
  Int.tdiv_eq_ediv ha (by norm_num)

/-- Floor division by a positive divisor is superadditive. -/
theorem ediv_add_ediv_le (a b : Int) {d : Int} (hd : 0 < d) :
    a / d + b / d ≤ (a + b) / d := by
  rw [Int.le_ediv_iff_mul_le hd, add_mul]
  exact add_le_add (Int.ediv_mul_le a hd.ne') (Int.ediv_mul_le b hd.ne')

/-- Summing the truncated shares `P * k / 10000` is bounded by the share of
the summed scaled percentages. -/
theorem sum_tdiv_le_tdiv_sum (P : Int) (hP : 0 ≤ P) :
    ∀ (ks : List Int), (∀ k ∈ ks, 0 ≤ k) →
      (ks.map (fun k => Int.tdiv (P * k) 10000)).sum
        ≤ Int.tdiv (P * ks.sum) 10000
  | [], _ => by simp [Int.tdiv]
  | k :: ks, hks => by
    have hk : 0 ≤ k := hks k (by simp)
    have hks' : ∀ x ∈ ks, 0 ≤ x := fun x hx => hks x (by simp [hx])
    have hS : 0 ≤ ks.sum := List.sum_nonneg hks'
    have ih := sum_tdiv_le_tdiv_sum P hP ks hks'
    have h1 : Int.tdiv (P * k) 10000 + Int.tdiv (P * ks.sum) 10000
        ≤ Int.tdiv (P * (k :: ks).sum) 10000 := by
      rw [tdiv_ten_thousand_eq_ediv _ (mul_nonneg hP hk),
        tdiv_ten_thousand_eq_ediv _ (mul_nonneg hP hS),
        tdiv_ten_thousand_eq_ediv _
          (mul_nonneg hP (by simpa using add_nonneg hk hS)),
        List.sum_cons, mul_add]
      exact ediv_add_ediv_le _ _ (by norm_num)
    calc ((k :: ks).map (fun x => Int.tdiv (P * x) 10000)).sum
        = Int.tdiv (P * k) 10000
          + (ks.map (fun x => Int.tdiv (P * x) 10000)).sum := by simp
      _ ≤ Int.tdiv (P * k) 10000 + Int.tdiv (P * ks.sum) 10000 := by
          exact add_le_add_left ih _
      _ ≤ Int.tdiv (P * (k :: ks).sum) 10000 := h1

/-- When the scaled percentages total at most `10000`, the truncated total
share is bounded by the pool. -/
theorem tdiv_total_le (P K : Int) (hP : 0 ≤ P) (hK0 : 0 ≤ K)
    (hK : K ≤ 10000) : Int.tdiv (P * K) 10000 ≤ P := by
  rw [tdiv_ten_thousand_eq_ediv _ (mul_nonneg hP hK0)]
  calc (P * K) / 10000 ≤ (P * 10000) / 10000 :=
        Int.ediv_le_ediv (by norm_num) (mul_le_mul_of_nonneg_left hK hP)
    _ = P := Int.mul_ediv_cancel P (by norm_num)

/-- Each built-in category has nonnegative scaled percentages totalling
exactly 10000 (= 100.00 percent). -/
theorem scaledPercentages_of_builtin (category : TournamentCategory)
    (hmem : category ∈ initializeCategories) :
    (∀ k ∈ scaledPercentages category, 0 ≤ k) ∧
      (scaledPercentages category).sum = 10000 := by
  simp only [initializeCategories, List.mem_cons, List.mem_singleton,
    List.not_mem_nil, or_false] at hmem
  rcases hmem with h | h | h <;> subst h <;>
    constructor <;> simp [scaledPercentages] <;> norm_num

/-- Claim C4: for a known category, `calculatePrizeDistribution` returns
exactly the rules of the category table whose `minPlayers` threshold is at
most the player count, paying each
`(pool * floor(percentage * 100)) / 10000` in truncating bigint
arithmetic, and for a nonnegative pool the returned amounts sum to at most
the pool. -/
theorem calculatePrizeDistribution_correct
    (categoryId : String) (category : TournamentCategory)
    (hcat : getCategoryById categoryId = some category)
    (P : Int) (hP : 0 ≤ P) (n : Nat) :
    calculatePrizeDistribution categoryId P n
      = .ok ((category.prizeDistribution.filter
          (fun rule => decide (rule.minPlayers ≤ n))).map
        (fun rule =>
          { rank := rule.rank,
            amount := Int.tdiv (P * ⌊(rule.percentage * 100 : ℚ)⌋) 10000 })) ∧
    (((category.prizeDistribution.filter
        (fun rule => decide (rule.minPlayers ≤ n))).map
      (fun rule => Int.tdiv (P * ⌊(rule.percentage * 100 : ℚ)⌋) 10000)).sum
      ≤ P) := by
  have hmem : category ∈ initializeCategories :=
    List.mem_of_find?_eq_some hcat
  obtain ⟨hpos, hsum⟩ := scaledPercentages_of_builtin category hmem
  constructor
  · simp [calculatePrizeDistribution, hcat]
  · set rules := category.prizeDistribution.filter
      (fun rule => decide (rule.minPlayers ≤ n)) with hrules
    have hsub : List.Sublist
        (rules.map (fun rule => ⌊(rule.percentage * 100 : ℚ)⌋))
        (scaledPercentages category) :=
      (List.filter_sublist _).map _
    have hpos' : ∀ k ∈ rules.map (fun rule => ⌊(rule.percentage * 100 : ℚ)⌋),
        0 ≤ k := fun k hk => hpos k (hsub.mem hk)
    have hsum' : (rules.map (fun rule => ⌊(rule.percentage * 100 : ℚ)⌋)).sum
        ≤ 10000 := hsum ▸ hsub.sum_le_sum hpos
    calc (rules.map
          (fun rule => Int.tdiv (P * ⌊(rule.percentage * 100 : ℚ)⌋) 10000)).sum
        = ((rules.map (fun rule => ⌊(rule.percentage * 100 : ℚ)⌋)).map
            (fun k => Int.tdiv (P * k) 10000)).sum := by
          simp [List.map_map, Function.comp_def]
      _ ≤ Int.tdiv
            (P * (rules.map (fun rule => ⌊(rule.percentage * 100 : ℚ)⌋)).sum)
            10000 :=
          sum_tdiv_le_tdiv_sum P hP _ hpos'
      _ ≤ P := tdiv_total_le P _ hP
            (List.sum_nonneg hpos') hsum'

/-- Witness for claim C4 at the beginner category, a pool of 1000 wei and
6 players: all three ranks qualify and 600 + 300 + 100 = 1000 ≤ 1000. -/
theorem c4_witness :
    (getCategoryById "beginner"
        = some (beginnerCat) ∧ (0 : Int) ≤ 1000) ∧
    (calculatePrizeDistribution "beginner" 1000 6
      = .ok (((beginnerCat).prizeDistribution.filter
          (fun rule => decide (rule.minPlayers ≤ 6))).map
        (fun rule =>
          { rank := rule.rank,
            amount := Int.tdiv (1000 * ⌊(rule.percentage * 100 : ℚ)⌋) 10000 })) ∧
    ((((beginnerCat).prizeDistribution.filter
        (fun rule => decide (rule.minPlayers ≤ 6))).map
      (fun rule => Int.tdiv (1000 * ⌊(rule.percentage * 100 : ℚ)⌋) 10000)).sum
      ≤ 1000)) :=
  ⟨⟨rfl, by decide⟩,
    calculatePrizeDistribution_correct "beginner" beginnerCat
      rfl 1000 (by decide) 6⟩

/-! ### Claim C7 -/

/-- Claim C7, as stated, is false: `getRecommendedCategory` applied to
`{totalGames := 5, winRate := 0.2, averageBet := 1}` picks the beginner
tier, but since the average bet of 1 wei is below the beginner entry-fee
floor it then searches for a category whose fee range brackets 1 wei and
finds none, returning no category rather than beginner; the expert-stats
input behaves the same way, so neither call returns the claimed
category. -/
theorem c7_recommendations_return_none :
    getRecommendedCategory { totalGames := 5, winRate := 0.2, averageBet := 1 }
        = none ∧
    getRecommendedCategory
        { totalGames := 100, winRate := 0.7, averageBet := 500 } = none ∧
    (∀ c : TournamentCategory,
      getRecommendedCategory { totalGames := 5, winRate := 0.2, averageBet := 1 }
        ≠ some c) := by
  have h3 : ¬((0.7 : ℚ) < 0.3) := by norm_num
  have h5 : ¬((0.7 : ℚ) < 0.5) := by norm_num
  refine ⟨rfl, ?_, ?_⟩
  · simp [getRecommendedCategory, initializeCategories, h3, h5]
  · intro c hcon
    rw [show getRecommendedCategory
        { totalGames := 5, winRate := 0.2, averageBet := 1 } = none from rfl]
      at hcon
    exact Option.noConfusion hcon

/-- Claim C7 (amended): the tier selection alone would pick beginner for
`{totalGames := 5, winRate := 0.2}` and expert for
`{totalGames := 100, winRate := 0.7}`, but the average-bet narrowing makes
both cited calls return no category, because 1 wei and 500 wei lie below
every category fee range; with an average bet inside the tier fee range
(for example `10^15` wei and `10^17` wei) the calls do return beginner and
expert respectively. -/
theorem getRecommendedCategory_tier_and_bet
    (better : RecommendStats) (expert : RecommendStats)
    (hb : better = { totalGames := 5, winRate := 0.2, averageBet := 1 })
    (he : expert = { totalGames := 100, winRate := 0.7, averageBet := 500 }) :
    getRecommendedCategory better = none ∧
    getRecommendedCategory expert = none ∧
    (getRecommendedCategory { better with averageBet := 1000000000000000 }).map
      TournamentCategory.id = some "beginner" ∧
    (getRecommendedCategory { expert with averageBet := 100000000000000000 }).map
      TournamentCategory.id = some "expert" := by
  subst hb he
  have h3 : ¬((0.7 : ℚ) < 0.3) := by norm_num
  have h5 : ¬((0.7 : ℚ) < 0.5) := by norm_num
  refine ⟨rfl, ?_, rfl, ?_⟩ <;>
    simp [getRecommendedCategory, initializeCategories, h3, h5]

/-- Witness for the amended claim C7 at the two cited stat records. -/
theorem c7_witness :
    (({ totalGames := 5, winRate := 0.2, averageBet := 1 } : RecommendStats)
        = { totalGames := 5, winRate := 0.2, averageBet := 1 } ∧
      ({ totalGames := 100, winRate := 0.7, averageBet := 500 } : RecommendStats)
        = { totalGames := 100, winRate := 0.7, averageBet := 500 }) ∧
    (getRecommendedCategory
        { totalGames := 5, winRate := 0.2, averageBet := 1 } = none ∧
    getRecommendedCategory
        { totalGames := 100, winRate := 0.7, averageBet := 500 } = none ∧
    (getRecommendedCategory
        { totalGames := 5, winRate := 0.2, averageBet := 1000000000000000 }).map
      TournamentCategory.id = some "beginner" ∧
    (getRecommendedCategory
        { totalGames := 100, winRate := 0.7, averageBet := 100000000000000000 }).map
      TournamentCategory.id = some "expert") :=
  ⟨⟨rfl, rfl⟩,
    getRecommendedCategory_tier_and_bet _ _ rfl rfl⟩

theorem runStats_append (l : List GameOutcome) (o : GameOutcome) :
    runStats (l ++ [o]) = statStep (runStats l) o := by
  simp [runStats, List.foldl_append]

theorem leading_exclusive (r : List GameOutcome) :
    leadingWins r = 0 ∨ leadingLosses r = 0 := by
  cases r with
  | nil => exact Or.inl rfl
  | cons o rest => cases o <;> simp [leadingWins, leadingLosses]

theorem trailingWins_append_win (l : List GameOutcome) :
    trailingWins (l ++ [.win]) = trailingWins l + 1 := by
  simp [trailingWins, List.reverse_append, leadingWins]

theorem trailingWins_append_other (l : List GameOutcome) (o : GameOutcome)
    (ho : o ≠ .win) : trailingWins (l ++ [o]) = 0 := by
  cases o <;> simp_all [trailingWins, List.reverse_append, leadingWins]

theorem trailingLosses_append_lose (l : List GameOutcome) :
    trailingLosses (l ++ [.lose]) = trailingLosses l + 1 := by
  simp [trailingLosses, List.reverse_append, leadingLosses]

theorem trailingLosses_append_other (l : List GameOutcome) (o : GameOutcome)
    (ho : o ≠ .lose) : trailingLosses (l ++ [o]) = 0 := by
  cases o <;> simp_all [trailingLosses, List.reverse_append, leadingLosses]

theorem bestWinRun_append (l : List GameOutcome) (o : GameOutcome) :
    bestWinRun (l ++ [o]) = max (trailingWins (l ++ [o])) (bestWinRun l) := by
  simp [bestWinRun, trailingWins, List.reverse_append, maxLeadingWins]

/-- The streak loop invariant: after scanning a history, `currentStreak` is
the trailing win count minus the trailing loss count (one of the two is
always zero), and `bestStreak` is the longest win run seen so far. -/
theorem runStats_streaks (games : List GameOutcome) :
    (runStats games).currentStreak
      = (trailingWins games : Int) - (trailingLosses games : Int) ∧
    (runStats games).bestStreak = (bestWinRun games : Int) := by
  induction games using List.reverseRecOn with
  | nil => exact ⟨rfl, rfl⟩
  | append_singleton l o ih =>
    obtain ⟨ih1, ih2⟩ := ih
    have hex : trailingWins l = 0 ∨ trailingLosses l = 0 :=
      leading_exclusive l.reverse
    rw [runStats_append]
    cases o with
    | win =>
      have hw := trailingWins_append_win l
      have hl := trailingLosses_append_other l .win (by simp)
      have hb := bestWinRun_append l .win
      rw [hw] at hb
      constructor
      · simp only [statStep, hw, hl, ih1]
        omega
      · simp only [statStep, hb, ih1, ih2]
        omega
    | lose =>
      have hw := trailingWins_append_other l .lose (by simp)
      have hl := trailingLosses_append_lose l
      have hb := bestWinRun_append l .lose
      rw [hw] at hb
      constructor
      · simp only [statStep, hw, hl, ih1]
        omega
      · simp only [statStep, hb, ih2]
        omega
    | draw =>
      have hw := trailingWins_append_other l .draw (by simp)
      have hl := trailingLosses_append_other l .draw (by simp)
      have hb := bestWinRun_append l .draw
      rw [hw] at hb
      constructor
      · simp only [statStep, hw, hl]
        omega
      · simp only [statStep, hb, ih2]
        omega

/-! ### Claim C8 -/

/-- Claim C8, as stated, is false in its `bestStreak` part: for the history
`[lose, lose]` the maximum absolute run length is 2 (a two-loss run), but
the scan leaves `bestStreak = 0`, because `bestStreak` is only updated on
wins. -/
theorem c8_bestStreak_ignores_loss_runs :
    (calculateStats "p" [.lose, .lose]).currentStreak = -2 ∧
    (calculateStats "p" [.lose, .lose]).bestStreak = 0 ∧
    specMaxRunLength [.lose, .lose] = 2 ∧
    (0 : Int) ≠ (2 : Int) :=
  ⟨rfl, rfl, rfl, by decide⟩

/-- Claim C8 (amended): scanning chronologically, a win sets the streak to
`max 0 streak + 1` (continuing a nonnegative run), a draw resets it to 0,
and a loss sets it to `min 0 streak - 1` (continuing a nonpositive run), so
`currentStreak` ends as the trailing win count minus the trailing loss
count; `bestStreak`, however, equals the longest run of consecutive wins
anywhere in the history — loss runs never update it. -/
theorem calculateStats_streaks (address : String) (games : List GameOutcome) :
    (∀ acc : StatsAcc,
      (statStep acc .win).currentStreak = max 0 acc.currentStreak + 1 ∧
      (statStep acc .draw).currentStreak = 0 ∧
      (statStep acc .lose).currentStreak = min 0 acc.currentStreak - 1 ∧
      (statStep acc .lose).bestStreak = acc.bestStreak ∧
      (statStep acc .draw).bestStreak = acc.bestStreak) ∧
    (calculateStats address games).currentStreak
      = (trailingWins games : Int) - (trailingLosses games : Int) ∧
    (calculateStats address games).bestStreak = (bestWinRun games : Int) := by
  obtain ⟨h1, h2⟩ := runStats_streaks games
  exact ⟨fun acc => ⟨rfl, rfl, rfl, rfl, rfl⟩, h1, h2⟩

theorem leaderboardLe_iff (a b : LeaderboardEntry) :
    leaderboardLe a b = true ↔ LeaderboardOrder a b := by
  unfold leaderboardLe leaderboardCmp LeaderboardOrder
  rw [decide_eq_true_iff]
  split_ifs with h1 h2
  · constructor
    · intro h
      exact Or.inl (lt_of_le_of_ne (sub_nonpos.mp h) h1)
    · rintro (h | ⟨hh, -⟩)
      · exact sub_nonpos.mpr h.le
      · exact absurd hh h1
  · rw [not_not] at h1
    constructor
    · intro h
      exact Or.inr ⟨h1,
        Or.inl (lt_of_le_of_ne (sub_nonpos.mp h) (fun hh => h2 hh.symm))⟩
    · rintro (h | ⟨-, h | ⟨hh, -⟩⟩)
      · rw [h1] at h
        exact absurd h (lt_irrefl _)
      · exact sub_nonpos.mpr h.le
      · exact absurd hh h2
  · rw [not_not] at h1 h2
    constructor
    · intro h
      refine Or.inr ⟨h1, Or.inr ⟨h2, ?_⟩⟩
      have hz : ((b.totalWon - a.totalWon : Int) : ℚ) ≤ ((0 : Int) : ℚ) := by
        exact_mod_cast h
      have := Int.cast_le.mp hz
      omega
    · rintro (h | ⟨-, h | ⟨-, h⟩⟩)
      · rw [h1] at h
        exact absurd h (lt_irrefl _)
      · rw [h2] at h
        exact absurd h (lt_irrefl _)
      · have hz : (b.totalWon - a.totalWon : Int) ≤ (0 : Int) := by omega
        exact_mod_cast hz

theorem leaderboardLe_trans (a b c : LeaderboardEntry)
    (hab : leaderboardLe a b = true) (hbc : leaderboardLe b c = true) :
    leaderboardLe a c = true := by
  rw [leaderboardLe_iff] at hab hbc ⊢
  unfold LeaderboardOrder at hab hbc ⊢
  rcases hab with h | ⟨e1, hab2⟩
  · rcases hbc with h2 | ⟨e2, -⟩
    · exact Or.inl (h.trans h2)
    · exact Or.inl (e2 ▸ h)
  · rcases hbc with h2 | ⟨e2, hbc2⟩
    · exact Or.inl (by rw [e1]; exact h2)
    · refine Or.inr ⟨e1.trans e2, ?_⟩
      rcases hab2 with hw | ⟨ew1, ht1⟩
      · rcases hbc2 with hw2 | ⟨ew2, -⟩
        · exact Or.inl (hw2.trans hw)
        · exact Or.inl (by rw [← ew2]; exact hw)
      · rcases hbc2 with hw2 | ⟨ew2, ht2⟩
        · exact Or.inl (by rw [ew1]; exact hw2)
        · exact Or.inr ⟨ew1.trans ew2, le_trans ht2 ht1⟩

theorem leaderboardLe_total (a b : LeaderboardEntry) :
    (leaderboardLe a b || leaderboardLe b a) = true := by
  rw [Bool.or_eq_true, leaderboardLe_iff, leaderboardLe_iff]
  unfold LeaderboardOrder
  rcases lt_trichotomy a.rank b.rank with h | h | h
  · exact Or.inl (Or.inl h)
  · rcases lt_trichotomy a.winRate b.winRate with h2 | h2 | h2
    · exact Or.inr (Or.inr ⟨h.symm, Or.inl h2⟩)
    · rcases le_total b.totalWon a.totalWon with h3 | h3
      · exact Or.inl (Or.inr ⟨h, Or.inr ⟨h2, h3⟩⟩)
      · exact Or.inr (Or.inr ⟨h.symm, Or.inr ⟨h2.symm, h3⟩⟩)
    · exact Or.inl (Or.inr ⟨h, Or.inl h2⟩)
  · exact Or.inr (Or.inl h)

/-- Claim C6 (amended): `getLeaderboard` is sorted ascending by the
composite score `floor(winRate*100) + min(totalGames/10, 10)` (the
comparator returns `a.rank - b.rank`, so lower scores come first), with
ties broken first by `winRate` descending and only then by `totalWinAmount`
descending; the comparator relation is total, so any two entries are
comparable. -/
theorem getLeaderboard_sorted (stats : List PlayerStats) (limit : Nat) :
    (getLeaderboard stats limit).Pairwise LeaderboardOrder ∧
    (∀ a b : LeaderboardEntry, LeaderboardOrder a b ∨ LeaderboardOrder b a) := by
  constructor
  · have hp : ((stats.map leaderboardEntry).mergeSort leaderboardLe).Pairwise
        (fun a b => leaderboardLe a b = true) := by
      have := List.sorted_mergeSort
        (fun a b c hab hbc => leaderboardLe_trans a b c hab hbc)
        (fun a b => leaderboardLe_total a b)
        (stats.map leaderboardEntry)
      exact this.imp (fun h => h)
    have hs : (getLeaderboard stats limit).Pairwise
        (fun a b => leaderboardLe a b = true) :=
      hp.sublist (List.take_sublist _ _)
    exact hs.imp (fun h => (leaderboardLe_iff _ _).mp h)
  · intro a b
    have := leaderboardLe_total a b
    rw [Bool.or_eq_true, leaderboardLe_iff, leaderboardLe_iff] at this
    exact this

unseal List.mergeSort List.merge in

theorem mergeSort_pair {α : Type} (le : α → α → Bool) (a b : α) :
    List.mergeSort [a, b] le = if le a b then [a, b] else [b, a] := by
  cases h : le a b <;> simp [List.mergeSort, List.splitInTwo, List.merge, h]

unseal List.mergeSort List.merge in

theorem mergeSort_triple {α : Type} (le : α → α → Bool) (a b c : α) :
    List.mergeSort [a, b, c] le
      = List.merge (List.mergeSort [a, b] le) [c] le := by
  simp [List.mergeSort, List.splitInTwo]

/-- Claim C6, as stated, is false on two counts: the returned list is
sorted ascending by the composite score (carol with score 0 comes first,
the score-60 players last), and within the equal-score pair the order is
decided by `winRate` descending (bob before alice) even though alice has
the larger `totalWinAmount`, which the claim says should break the tie. -/
theorem c6_leaderboard_order_refuted :
    getLeaderboard [statA, statB, statC] 3 = [entC, entB, entA] ∧
    entC.rank < entB.rank ∧
    entB.rank = entA.rank ∧
    entB.totalWon < entA.totalWon := by
  have hmap : [statA, statB, statC].map leaderboardEntry = [entA, entB, entC] := by
    simp only [List.map_cons, List.map_nil, leaderboardEntry, statA, statB,
      statC, entA, entB, entC, calculateRank]
    norm_num
  have hab : leaderboardLe entA entB = false := by
    simp only [leaderboardLe, leaderboardCmp, entA, entB]
    norm_num
  have hbc : leaderboardLe entB entC = false := by
    simp only [leaderboardLe, leaderboardCmp, entB, entC]
    norm_num
  refine ⟨?_, by norm_num [entB, entC], rfl, by norm_num [entA, entB]⟩
  unfold getLeaderboard
  rw [hmap, mergeSort_triple, mergeSort_pair, hab]
  simp only [Bool.false_eq_true, if_false]
  rw [List.cons_merge_cons, hbc]
  simp

/-! ### Claim C9 -/

theorem successLe_iff (a b : PlayerPrize) :
    successLe a b = true ↔ b.totalPrize ≤ a.totalPrize := by
  unfold successLe
  rw [decide_eq_true_iff]
  omega

/-- Claim C9 (amended): `mostSuccessfulPlayers` is the top 10 of the
aggregated winners sorted by total prize descending only; entries with
equal total prize keep their aggregation order (the order in which the
addresses first appeared as winners), and `tournamentsWon` is never used
as a tie-break. -/
theorem successLe_trans (a b c : PlayerPrize)
    (hab : successLe a b = true) (hbc : successLe b c = true) :
    successLe a c = true := by
  rw [successLe_iff] at hab hbc ⊢
  omega

theorem successLe_total (a b : PlayerPrize) :
    (successLe a b || successLe b a) = true := by
  rw [Bool.or_eq_true, successLe_iff, successLe_iff]
  omega

theorem mostSuccessfulPlayers_sorted (histories : List TournamentHistoryRec) :
    (mostSuccessfulPlayers histories).Pairwise
      (fun a b => b.totalPrize ≤ a.totalPrize) ∧
    (mostSuccessfulPlayers histories).length ≤ 10 := by
  constructor
  · have hp : ((playerPrizeTable histories).mergeSort successLe).Pairwise
        (fun a b => successLe a b = true) := by
      have := List.sorted_mergeSort
        (fun a b c hab hbc => successLe_trans a b c hab hbc)
        (fun a b => successLe_total a b)
        (playerPrizeTable histories)
      exact this.imp (fun h => h)
    have hs := hp.sublist (List.take_sublist 10 _)
    exact hs.imp (fun h => (successLe_iff _ _).mp h)
  · simp only [mostSuccessfulPlayers, List.length_take]
    omega

/-- Claim C9, as stated, is false: x and y tie at a total prize of 100,
y has won two tournaments to the single one of x, yet the returned order
keeps x (the first address ever seen as a winner) ahead of y -- the tie
is not broken by `tournamentsWon`. -/
theorem c9_tie_not_broken_by_wins :
    mostSuccessfulPlayers [hist1, hist2, hist3] = [prizeX, prizeY] ∧
    prizeX.totalPrize = prizeY.totalPrize ∧
    prizeX.tournamentsWon < prizeY.tournamentsWon := by
  have htab : playerPrizeTable [hist1, hist2, hist3] = [prizeX, prizeY] := rfl
  refine ⟨?_, rfl, by decide⟩
  unfold mostSuccessfulPlayers
  rw [htab, mergeSort_pair, show successLe prizeX prizeY = true from rfl]
  simp

/-! ### Claim C10 -/

/-- Claim C10: on an empty history, `getTournamentStatistics` divides the
summed roster sizes by `histories.length` with no zero guard, a JS `0/0`,
so `averagePlayersPerTournament` is NaN (here `none`) rather than 0 or an
error, while the remaining fields are the well-defined empty and zero
values. -/
theorem getTournamentStatistics_empty :
    (getTournamentStatistics []).averagePlayersPerTournament = none ∧
    (getTournamentStatistics []).totalTournaments = 0 ∧
    (getTournamentStatistics []).totalPlayers = 0 ∧
    (getTournamentStatistics []).totalPrizePool = 0 ∧
    (getTournamentStatistics []).mostSuccessful = [] := by
  refine ⟨rfl, rfl, rfl, rfl, ?_⟩
  simp [getTournamentStatistics, mostSuccessfulPlayers, playerPrizeTable]
